import Mathlib

/-
  Verification of the ExamPaperShare offline submission queue and its
  synchronization protocol, as implemented in
  client/public/service-worker.js and the client library helpers
  (storeForOffline / getOfflineData, in two revisions), against the
  natural-language specification.

  The embedding models the IndexedDB database "ExamShareOfflineDB"
  (version 1) as a value of type OfflineDB with its three object stores,
  JSON-like record values as JValue objects, and the asynchronous
  operations as pure functions over an explicit environment describing
  platform outcomes (open failure, write failure, network outcome, ...).
-/

namespace ExamShare

/-- A JSON-like value: the shape of data handled by the offline store.
Numbers are modelled as integers (all ids and payload fields in this
repository are integers or strings); NaN does not arise. -/
inductive JValue where
  | null
  | bool (b : Bool)
  | num (n : Int)
  | str (s : String)
  | obj (fields : List (String × JValue))

mutual

/-- Decidable equality for JValue (the nested field list forces a manual
definition). -/
def JValue.decEq : (a b : JValue) → Decidable (a = b)
  | .null, .null => .isTrue rfl
  | .bool x, .bool y =>
      if h : x = y then .isTrue (congrArg JValue.bool h)
      else .isFalse (fun hh => h (JValue.bool.inj hh))
  | .num x, .num y =>
      if h : x = y then .isTrue (congrArg JValue.num h)
      else .isFalse (fun hh => h (JValue.num.inj hh))
  | .str x, .str y =>
      if h : x = y then .isTrue (congrArg JValue.str h)
      else .isFalse (fun hh => h (JValue.str.inj hh))
  | .obj fs, .obj gs =>
      match JValue.decEqFields fs gs with
      | .isTrue h => .isTrue (congrArg JValue.obj h)
      | .isFalse h => .isFalse (fun hh => h (JValue.obj.inj hh))
  | .null, .bool _ => .isFalse (fun h => nomatch h)
  | .null, .num _ => .isFalse (fun h => nomatch h)
  | .null, .str _ => .isFalse (fun h => nomatch h)
  | .null, .obj _ => .isFalse (fun h => nomatch h)
  | .bool _, .null => .isFalse (fun h => nomatch h)
  | .bool _, .num _ => .isFalse (fun h => nomatch h)
  | .bool _, .str _ => .isFalse (fun h => nomatch h)
  | .bool _, .obj _ => .isFalse (fun h => nomatch h)
  | .num _, .null => .isFalse (fun h => nomatch h)
  | .num _, .bool _ => .isFalse (fun h => nomatch h)
  | .num _, .str _ => .isFalse (fun h => nomatch h)
  | .num _, .obj _ => .isFalse (fun h => nomatch h)
  | .str _, .null => .isFalse (fun h => nomatch h)
  | .str _, .bool _ => .isFalse (fun h => nomatch h)
  | .str _, .num _ => .isFalse (fun h => nomatch h)
  | .str _, .obj _ => .isFalse (fun h => nomatch h)
  | .obj _, .null => .isFalse (fun h => nomatch h)
  | .obj _, .bool _ => .isFalse (fun h => nomatch h)
  | .obj _, .num _ => .isFalse (fun h => nomatch h)
  | .obj _, .str _ => .isFalse (fun h => nomatch h)

/-- Decidable equality of field lists, mutual with JValue.decEq. -/
def JValue.decEqFields : (a b : List (String × JValue)) → Decidable (a = b)
  | [], [] => .isTrue rfl
  | [], _ :: _ => .isFalse (fun h => nomatch h)
  | _ :: _, [] => .isFalse (fun h => nomatch h)
  | (k1, v1) :: r1, (k2, v2) :: r2 =>
      if hk : k1 = k2 then
        match JValue.decEq v1 v2 with
        | .isTrue hv =>
          match JValue.decEqFields r1 r2 with
          | .isTrue hr => .isTrue (by rw [hk, hv, hr])
          | .isFalse hr => .isFalse (by intro h; injection h with h1 h2; exact hr h2)
        | .isFalse hv => .isFalse (by
            intro h; injection h with h1 h2
            exact hv (congrArg Prod.snd h1))
      else .isFalse (by
        intro h; injection h with h1 h2
        exact hk (congrArg Prod.fst h1))

end

instance : DecidableEq JValue := JValue.decEq

/-- A JavaScript object, as a list of fields in definition order.
Later bindings shadow earlier ones, matching object-spread semantics. -/
abbrev Obj := List (String × JValue)

/-- Property read `o[k]`: the last binding for `k` wins (spread semantics). -/
def getField (o : Obj) (k : String) : Option JValue :=
  (o.reverse.find? (fun p => p.1 == k)).map Prod.snd

/-- JavaScript truthiness of an optional property value (`data.id ? _ : _`).
An absent property (undefined) is falsy; 0, "", false and null are falsy. -/
def truthy : Option JValue → Bool
  | none => false
  | some .null => false
  | some (.bool b) => b
  | some (.num n) => !(n == 0)
  | some (.str s) => !(s == "")
  | some (.obj _) => true

/-- Whether a value is a valid IndexedDB key. The keys this repository
uses are numbers (auto-increment or server ids) and strings. -/
def validKey : JValue → Bool
  | .num _ => true
  | .str _ => true
  | _ => false

/-- One object store of "ExamShareOfflineDB": its records keyed by the
in-line key path "id", plus the state of the auto-increment generator.
Entries are kept in key order; all writes in this repository append with
strictly increasing generated numeric keys, so the list order is both
insertion order and IndexedDB key order. -/
structure Partition where
  entries : List (JValue × Obj)
  nextKey : Int
deriving DecidableEq

/-- Insert-or-replace by key, as `store.put` does. -/
def putEntry (es : List (JValue × Obj)) (k : JValue) (r : Obj) : List (JValue × Obj) :=
  match es with
  | [] => [(k, r)]
  | e :: rest => if e.1 == k then (k, r) :: rest else e :: putEntry rest k r

/-- Whether a key is already present in a store. -/
def hasKey (es : List (JValue × Obj)) (k : JValue) : Bool :=
  es.any (fun e => e.1 == k)

/-- The key generator is bumped past any explicitly supplied numeric key. -/
def bumpKey (nextKey : Int) (k : JValue) : Int :=
  match k with
  | .num n => max nextKey (n + 1)
  | _ => nextKey

/-- `store.put(record)` with in-line key `k`: replaces the record with the
same key or inserts it, and bumps the generator. -/
def Partition.put (p : Partition) (k : JValue) (r : Obj) : Partition :=
  { entries := putEntry p.entries k r, nextKey := bumpKey p.nextKey k }

/-- Outcome of `store.add(record)` on a store with in-line key path "id":
`invalidKey` is the synchronously thrown DataError, `keyExists` the
asynchronous ConstraintError. -/
inductive AddResult where
  | ok (p : Partition) (key : JValue)
  | invalidKey
  | keyExists
deriving DecidableEq

/-- `store.add(record)` semantics for a store with keyPath "id".
`autoInc` says whether the store was created with a key generator
(`autoIncrement: true` — in this schema only pendingSubmissions is).
When the record has no "id" property: with a generator, the generated
key is injected into the record; without one, IndexedDB throws DataError.
A present "id" is used as the key when it is a valid key (bumping the
generator past an explicit numeric key), and throws DataError
otherwise. -/
def Partition.add (p : Partition) (autoInc : Bool) (r : Obj) : AddResult :=
  match getField r "id" with
  | none =>
    if autoInc then
      let k := JValue.num p.nextKey
      if hasKey p.entries k then .keyExists
      else .ok { entries := p.entries ++ [(k, r ++ [("id", k)])], nextKey := p.nextKey + 1 } k
    else .invalidKey
  | some v =>
    if validKey v then
      if hasKey p.entries v then .keyExists
      else .ok { entries := p.entries ++ [(v, r)], nextKey := bumpKey p.nextKey v } v
    else .invalidKey

/-- Well-formedness of a store actually reachable in this repository:
every numeric key is below the generator's next value (guaranteed by
IndexedDB's key generator). -/
def keyBelow (k : JValue) (n : Int) : Bool :=
  match k with
  | .num m => m < n
  | _ => true

/-- A partition is well formed when no entry's numeric key has reached the
generator value, so a generated key is always fresh. -/
def Partition.wf (p : Partition) : Bool :=
  p.entries.all (fun e => keyBelow e.1 p.nextKey)

/-- The three object stores created by the `onupgradeneeded` handlers of
both service-worker.js and the client library (identical schemas):
pendingSubmissions (keyPath "id", autoIncrement), cachedQuestionPapers and
cachedSubmissions (keyPath "id"). -/
inductive StoreName where
  | pendingSubmissions
  | cachedQuestionPapers
  | cachedSubmissions
deriving DecidableEq

/-- Which stores the `onupgradeneeded` handlers create with a key
generator: only pendingSubmissions has `autoIncrement: true`; the two
cached stores are created with `keyPath: 'id'` alone. -/
def StoreName.autoIncrement : StoreName → Bool
  | .pendingSubmissions => true
  | .cachedQuestionPapers => false
  | .cachedSubmissions => false

/-- The database "ExamShareOfflineDB", version 1, with its three stores. -/
structure OfflineDB where
  pendingSubmissions : Partition
  cachedQuestionPapers : Partition
  cachedSubmissions : Partition
deriving DecidableEq

/-- Select a store by name. -/
def OfflineDB.part (db : OfflineDB) : StoreName → Partition
  | .pendingSubmissions => db.pendingSubmissions
  | .cachedQuestionPapers => db.cachedQuestionPapers
  | .cachedSubmissions => db.cachedSubmissions

/-- Replace a store by name. -/
def OfflineDB.setPart (db : OfflineDB) : StoreName → Partition → OfflineDB
  | .pendingSubmissions, p => { db with pendingSubmissions := p }
  | .cachedQuestionPapers, p => { db with cachedQuestionPapers := p }
  | .cachedSubmissions, p => { db with cachedSubmissions := p }

/-- A store that has just been created: no entries, generator at 1. -/
def emptyPartition : Partition := { entries := [], nextKey := 1 }

/-- A freshly created database. -/
def emptyDB : OfflineDB := ⟨emptyPartition, emptyPartition, emptyPartition⟩

/-- Platform outcomes for one storage interaction: whether opening the
database fails, whether the write request errors, whether a read request
errors, whether the browser exposes SyncManager, and the current time as
an ISO string (`new Date().toISOString()`). -/
structure Env where
  openFails : Bool
  writeFails : Bool
  readFails : Bool
  syncSupported : Bool
  now : String
deriving DecidableEq

/-- Result of an asynchronous store operation: the promise either resolves
(with the updated database, and whether a background-sync registration was
requested) or rejects with the error value passed to `reject`. -/
inductive StoreOutcome where
  | resolved (db : OfflineDB) (syncRequested : Bool)
  | rejected (err : String)
deriving DecidableEq

/-- Embeds `storeForOffline` (client library, IndexedDB revision):
opens ExamShareOfflineDB; on open error rejects with "Error opening
database"; otherwise builds `record = { ...data, timestamp, pendingSync:
true }` and performs `data.id ? store.put(record) : store.add(record)`.
A request error rejects with "Error storing data"; a synchronously thrown
DataError is caught and rejected as-is (modelled by the string
"DataError") — in particular, adding an id-less record to one of the two
cached stores, which have no key generator, throws DataError. On success
it requests background-sync registration of tag "submit-answer" when the
platform supports it, then resolves. -/
def storeForOffline (env : Env) (db : OfflineDB) (s : StoreName) (data : Obj) : StoreOutcome :=
  if env.openFails then .rejected "Error opening database"
  else
    let record : Obj := data ++ [("timestamp", JValue.str env.now), ("pendingSync", JValue.bool true)]
    if truthy (getField data "id") then
      match getField record "id" with
      | some v =>
        if validKey v then
          if env.writeFails then .rejected "Error storing data"
          else .resolved (db.setPart s ((db.part s).put v record)) env.syncSupported
        else .rejected "DataError"
      | none => .rejected "DataError"
    else
      match (db.part s).add s.autoIncrement record with
      | .invalidKey => .rejected "DataError"
      | .keyExists => .rejected "Error storing data"
      | .ok p _ =>
        if env.writeFails then .rejected "Error storing data"
        else .resolved (db.setPart s p) env.syncSupported

/-- Embeds `getOfflineData` (client library): opens the database (open
error rejects), resolves with `[]` when the store does not exist (all
three modelled stores always exist after version-1 upgrade), and otherwise
resolves with `store.getAll()`, rejecting on a read error. -/
def getOfflineData (env : Env) (db : OfflineDB) (s : StoreName) : Except String (List Obj) :=
  if env.openFails then .error "Error opening database"
  else if env.readFails then .error "Error retrieving data"
  else .ok ((db.part s).entries.map Prod.snd)

/-- Embeds `storeSubmission` (service-worker.js): adds
`{ data, timestamp }` to pendingSubmissions (the auto-increment store);
rejects with "Error storing submission in IndexedDB" on a request error.
No background-sync registration is requested by this function. -/
def storeSubmission (env : Env) (db : OfflineDB) (payload : JValue) : StoreOutcome :=
  if env.openFails then .rejected "Error opening IndexedDB"
  else
    let record : Obj := [("data", payload), ("timestamp", JValue.str env.now)]
    match db.pendingSubmissions.add true record with
    | .invalidKey => .rejected "DataError"
    | .keyExists => .rejected "Error storing submission in IndexedDB"
    | .ok p _ =>
      if env.writeFails then .rejected "Error storing submission in IndexedDB"
      else .resolved (db.setPart .pendingSubmissions p) false

/-- Embeds `removeSubmission` (service-worker.js): deletes the record with
the given key from pendingSubmissions (a no-op when the key is absent).
The IndexedDB delete error path rejects and is caught by the sync loop's
per-record handler; it is not modelled separately. -/
def removeSubmission (db : OfflineDB) (k : JValue) : OfflineDB :=
  db.setPart .pendingSubmissions
    { entries := db.pendingSubmissions.entries.filter (fun e => !(e.1 == k)),
      nextKey := db.pendingSubmissions.nextKey }

/-- Outcome of one `fetch` delivery attempt: an HTTP response with its
status, or a network-level failure (the promise rejects). -/
inductive FetchOutcome where
  | http (status : Nat)
  | netError
deriving DecidableEq

/-- `response.ok` of the Fetch API: status in the range 200-299. -/
def responseOk (status : Nat) : Bool :=
  decide (200 ≤ status) && decide (status < 300)

/-- State produced by a sync pass: the database, the titles of the
notifications raised, and the delivery requests attempted, each as
(url, body), where the body is `JSON.stringify(submission.data)` — `none`
models an absent `data` property, for which `JSON.stringify(undefined)`
is undefined and no body is sent. -/
structure SyncResult where
  db : OfflineDB
  notifications : List String
  requests : List (String × Option JValue)
deriving DecidableEq

/-- The delivery request `syncPendingSubmissions` makes for one queued
record: POST to the constant URL "/api/answer-submissions" with body
`JSON.stringify(submission.data)`. -/
def deliveryRequest (rec : Obj) : String × Option JValue :=
  ("/api/answer-submissions", getField rec "data")

/-- Whether the delivery attempt for a queued entry came back as an HTTP
success (2xx). A network error or a non-2xx status is not a success. -/
def deliveredOk (net : JValue → Obj → FetchOutcome) (e : JValue × Obj) : Bool :=
  match net e.1 e.2 with
  | .http s => responseOk s
  | .netError => false

/-- The per-record loop of `syncPendingSubmissions`: for each snapshot
entry in order, attempt delivery; on `response.ok` remove the record and
raise a "Submission Synced" notification; on a non-2xx response or a
network error (caught per record) leave the record and continue. -/
def syncLoop (net : JValue → Obj → FetchOutcome) :
    List (JValue × Obj) → SyncResult → SyncResult
  | [], acc => acc
  | e :: rest, acc =>
    let acc1 : SyncResult := { acc with requests := acc.requests ++ [deliveryRequest e.2] }
    let acc2 : SyncResult :=
      if deliveredOk net e then
        { db := removeSubmission acc1.db e.1,
          notifications := acc1.notifications ++ ["Submission Synced"],
          requests := acc1.requests }
      else acc1
    syncLoop net rest acc2

/-- The snapshot `getPendingSubmissions` reads: all records of
pendingSubmissions, in store order. -/
def pendingEntries (db : OfflineDB) : List (JValue × Obj) :=
  db.pendingSubmissions.entries

/-- Embeds `syncPendingSubmissions` (service-worker.js): read the full
pendingSubmissions snapshot, then run the delivery loop over it. -/
def syncPendingSubmissions (net : JValue → Obj → FetchOutcome) (db : OfflineDB) : SyncResult :=
  syncLoop net (pendingEntries db) { db := db, notifications := [], requests := [] }

/-- The top-level try/catch of `syncPendingSubmissions`: when opening the
database or reading the snapshot fails, the error is logged and the pass
does nothing. `avail` is true when both succeed. -/
def runSync (avail : Bool) (net : JValue → Obj → FetchOutcome) (db : OfflineDB) : SyncResult :=
  if avail then syncPendingSubmissions net db
  else { db := db, notifications := [], requests := [] }

/-- Embeds the service worker's 'sync' event listener: only an event
tagged "submit-answer" triggers a sync pass. -/
def handleSyncEvent (tag : String) (avail : Bool) (net : JValue → Obj → FetchOutcome)
    (db : OfflineDB) : SyncResult :=
  if tag == "submit-answer" then runSync avail net db
  else { db := db, notifications := [], requests := [] }

/-- A service-worker Response, reduced to the parts this development
reasons about: status, Content-Type header, and body text. -/
structure SWResponse where
  status : Nat
  contentType : String
  body : String
deriving DecidableEq

/-- The synthesized offline response of the API branch of the fetch
listener: status 503, JSON body
`JSON.stringify({ error: 'You are offline. ...' })`. -/
def offlineResponse : SWResponse :=
  { status := 503
  , contentType := "application/json"
  , body := "\x7b\"error\":\"You are offline. Please try again when you have an internet connection.\"\x7d" }

/-- API_ROUTES of service-worker.js. -/
def apiRoutes : List String := ["/api/"]

/-- `a.startsWith(b)` of JavaScript, on the underlying character lists. -/
def strStarts (s pre : String) : Bool :=
  pre.data.isPrefixOf s.data

/-- `a.endsWith(b)` of JavaScript, on the underlying character lists. -/
def strEnds (s suf : String) : Bool :=
  suf.data.reverse.isPrefixOf s.data.reverse

/-- Embeds `isApiRequest`: the pathname starts with one of API_ROUTES. -/
def isApiRequest (pathname : String) : Bool :=
  apiRoutes.any (fun route => strStarts pathname route)

/-- The file-extension allow-list of `isStaticAsset`. -/
def staticExtensions : List String :=
  [".js", ".css", ".png", ".jpg", ".jpeg", ".svg", ".ico", ".json", ".woff", ".woff2", ".ttf"]

/-- Embeds `isStaticAsset`: the pathname ends with a listed extension. -/
def isStaticAsset (pathname : String) : Bool :=
  staticExtensions.any (fun ext => strEnds pathname ext)

/-- The cache and network state a single fetch-event dispatch observes:
what `fetch(event.request)` would produce (`none` = the fetch promise
rejects), `caches.match(event.request)`, and `caches.match('/index.html')`
(the SPA shell fallback). -/
structure FetchEnv where
  netResult : Option SWResponse
  cached : Option SWResponse
  cachedShell : Option SWResponse
deriving DecidableEq

/-- What the fetch listener does with one request: not handled at all
(cross-origin early return), `event.respondWith` of a response (or of
`undefined`, when every fallback missed), or `event.respondWith` of a
rejected promise, which surfaces a network error to the page. -/
inductive FetchDecision where
  | passthrough
  | respond (r : Option SWResponse)
  | networkErrorPropagated
deriving DecidableEq

/-- Embeds the fetch event listener of service-worker.js, branch by
branch: cross-origin passthrough; API network-first with a synthesized
503 offline response; static assets cache-first, then network with no
catch (a fetch rejection propagates); navigations network-first with
cache then '/index.html' shell fallback; default cache-first, then
network with no catch. The cache-population side effect of the static
branch touches only the asset cache, not the durable store, and no claim
depends on it, so it is not carried in the result. -/
def handleFetch (sameOrigin : Bool) (isNavigate : Bool) (pathname : String)
    (env : FetchEnv) : FetchDecision :=
  if !sameOrigin then .passthrough
  else if isApiRequest pathname then
    match env.netResult with
    | some r => .respond (some r)
    | none => .respond (some offlineResponse)
  else if isStaticAsset pathname then
    match env.cached with
    | some r => .respond (some r)
    | none =>
      match env.netResult with
      | some r => .respond (some r)
      | none => .networkErrorPropagated
  else if isNavigate then
    match env.netResult with
    | some r => .respond (some r)
    | none =>
      match env.cached with
      | some r => .respond (some r)
      | none => .respond env.cachedShell
  else
    match env.cached with
    | some r => .respond (some r)
    | none =>
      match env.netResult with
      | some r => .respond (some r)
      | none => .networkErrorPropagated

/-- The (method, path) pairs registered by `registerRoutes` in
server/routes.ts, in registration order. `setupAuth` (excluded as an
external collaborator by the spec) additionally registers only
authentication endpoints; no submission route comes from it. -/
def serverRoutes : List (String × String) :=
  [ ("GET", "/api/question-papers")
  , ("GET", "/api/question-papers/:id")
  , ("POST", "/api/question-papers")
  , ("PUT", "/api/question-papers/:id")
  , ("DELETE", "/api/question-papers/:id")
  , ("GET", "/api/question-papers/:id/submissions")
  , ("GET", "/api/my-submissions")
  , ("GET", "/api/submissions/:id")
  , ("POST", "/api/submissions")
  , ("GET", "/api/submissions/:id/comments")
  , ("POST", "/api/submissions/:id/comments")
  , ("GET", "/api/notifications")
  , ("PUT", "/api/notifications/:id/read") ]

/-- What one run of the student submit action produces: the (unchanged)
offline database, the single network request made, and the toast title
shown. -/
structure SubmitResult where
  db : OfflineDB
  request : String × String
  toast : String
deriving DecidableEq

/-- Embeds `submitAnswerMutation` of student-view.tsx together with its
callbacks: `apiRequest('POST', '/api/submissions', data)` performs one
immediate delivery (apiRequest, a thin fetch wrapper outside src, rejects
on network failure and on a non-2xx response, which is what routes the
mutation into onError); onSuccess shows the success toast, onError shows
the failure toast. No branch reads or writes the offline database. -/
def submitAnswerFlow (net : FetchOutcome) (db : OfflineDB) : SubmitResult :=
  { db := db
  , request := ("POST", "/api/submissions")
  , toast :=
      match net with
      | .http s =>
        if responseOk s then "Answer submitted successfully" else "Failed to submit answer"
      | .netError => "Failed to submit answer" }

/-- Result of the localStorage-based `storeForOffline` revision: whether
the returned promise resolved, and the store contents after the call. -/
structure LocalStoreResult where
  resolved : Bool
  items : List Obj
deriving DecidableEq

/-- Embeds the earlier `storeForOffline` revision (localStorage-based):
reads the existing array, pushes `{ ...data, id: Date.now(), pendingSync:
true }`, and writes it back inside a try/catch whose catch only logs —
the async function returns normally on every path, so the promise always
resolves. `writeFails` models any exception from getItem, JSON.parse or
setItem (e.g. quota exceeded). -/
def storeForOfflineLocal (writeFails : Bool) (nowMs : Int) (items : List Obj)
    (data : Obj) : LocalStoreResult :=
  if writeFails then { resolved := true, items := items }
  else
    { resolved := true
    , items := items ++ [data ++ [("id", JValue.num nowMs), ("pendingSync", JValue.bool true)]] }

/-- The keys of an object, with duplicates. -/
def keysOf (o : Obj) : List String := o.map Prod.fst

/-- Extensional equality of two objects: every property reads the same.
Checking the keys of both sides suffices, since any other key reads
`none` on both. -/
def objEquivB (a b : Obj) : Bool :=
  (keysOf a ++ keysOf b).all (fun k => getField a k == getField b k)

/-! Helper lemmas about property reads, the store operations, and the
sync loop. -/

theorem getField_append (o1 o2 : Obj) (k : String) :
    getField (o1 ++ o2) k = (getField o2 k).or (getField o1 k) := by
  unfold getField
  rw [List.reverse_append, List.find?_append]
  cases h : o2.reverse.find? (fun p => p.1 == k) <;> simp [h]

theorem getField_singleton (k1 : String) (v : JValue) (k : String) :
    getField [(k1, v)] k = if k = k1 then some v else getField ([] : Obj) k := by
  by_cases h : k = k1
  · simp [getField, h]
  · simp [getField, h, Ne.symm h]

theorem getField_nil (k : String) : getField ([] : Obj) k = none := rfl

theorem getField_append_single (o : Obj) (k1 : String) (v : JValue) (k : String) :
    getField (o ++ [(k1, v)]) k = if k = k1 then some v else getField o k := by
  rw [getField_append, getField_singleton]
  by_cases h : k = k1 <;> simp [h, getField_nil]

theorem getField_record (d : Obj) (ts : String) (k : String) :
    getField (d ++ [("timestamp", JValue.str ts), ("pendingSync", JValue.bool true)]) k
      = if k = "pendingSync" then some (JValue.bool true)
        else if k = "timestamp" then some (JValue.str ts)
        else getField d k := by
  have h2 : d ++ [("timestamp", JValue.str ts), ("pendingSync", JValue.bool true)]
      = (d ++ [("timestamp", JValue.str ts)]) ++ [("pendingSync", JValue.bool true)] := by simp
  rw [h2, getField_append_single, getField_append_single]

theorem pendingEntries_removeSubmission (db : OfflineDB) (k : JValue) :
    pendingEntries (removeSubmission db k)
      = (pendingEntries db).filter (fun e => !(e.1 == k)) := rfl

theorem syncLoop_requests (net : JValue → Obj → FetchOutcome) (pend : List (JValue × Obj))
    (acc : SyncResult) :
    (syncLoop net pend acc).requests
      = acc.requests ++ pend.map (fun e => deliveryRequest e.2) := by
  induction pend generalizing acc with
  | nil => simp [syncLoop]
  | cons e rest ih =>
    cases h : deliveredOk net e <;> simp [syncLoop, h, ih]

theorem syncLoop_notifications (net : JValue → Obj → FetchOutcome)
    (pend : List (JValue × Obj)) (acc : SyncResult) :
    (syncLoop net pend acc).notifications
      = acc.notifications
        ++ (pend.filter (fun e => deliveredOk net e)).map (fun _ => "Submission Synced") := by
  induction pend generalizing acc with
  | nil => simp [syncLoop]
  | cons e rest ih =>
    cases h : deliveredOk net e <;> simp [syncLoop, h, ih]

theorem syncLoop_pending (net : JValue → Obj → FetchOutcome) (pend : List (JValue × Obj))
    (acc : SyncResult) :
    pendingEntries (syncLoop net pend acc).db
      = (pendingEntries acc.db).filter
          (fun q => !(pend.any (fun p => deliveredOk net p && q.1 == p.1))) := by
  induction pend generalizing acc with
  | nil => simp [syncLoop]
  | cons e rest ih =>
    cases h : deliveredOk net e
    · simp only [syncLoop, h]
      rw [ih]
      apply List.filter_congr
      intro q _
      simp [h]
    · simp only [syncLoop, h, if_true]
      rw [ih]
      simp only [pendingEntries_removeSubmission, List.filter_filter]
      apply List.filter_congr
      intro q _
      simp [h, Bool.and_comm]

theorem mem_putEntry_self (es : List (JValue × Obj)) (k : JValue) (r : Obj) :
    (k, r) ∈ putEntry es k r := by
  induction es with
  | nil => simp [putEntry]
  | cons e rest ih =>
    by_cases h : e.1 == k <;> simp [putEntry, h, ih]

theorem keyBelow_mono (k : JValue) (m n : Int) (hmn : m ≤ n) (h : keyBelow k m = true) :
    keyBelow k n = true := by
  cases k <;> simp_all [keyBelow]
  omega

theorem hasKey_next_of_wf (p : Partition) (hwf : p.wf = true) :
    hasKey p.entries (JValue.num p.nextKey) = false := by
  unfold hasKey
  rw [List.any_eq_false]
  intro e he hbe
  have hkb : keyBelow e.1 p.nextKey = true := List.all_eq_true.mp hwf e he
  have : e.1 = JValue.num p.nextKey := by simpa using hbe
  rw [this] at hkb
  simp [keyBelow] at hkb

theorem add_eq_of_wf (p : Partition) (r : Obj) (hid : getField r "id" = none)
    (hwf : p.wf = true) :
    p.add true r = .ok
      { entries := p.entries
          ++ [(JValue.num p.nextKey, r ++ [("id", JValue.num p.nextKey)])],
        nextKey := p.nextKey + 1 }
      (JValue.num p.nextKey) := by
  have hk := hasKey_next_of_wf p hwf
  unfold Partition.add
  rw [hid]
  simp [hk]

theorem add_not_auto (p : Partition) (r : Obj) (hid : getField r "id" = none) :
    p.add false r = .invalidKey := by
  unfold Partition.add
  rw [hid]
  simp

theorem wf_after_add (p : Partition) (r : Obj) (hwf : p.wf = true) :
    Partition.wf
      { entries := p.entries
          ++ [(JValue.num p.nextKey, r ++ [("id", JValue.num p.nextKey)])],
        nextKey := p.nextKey + 1 } = true := by
  unfold Partition.wf at *
  rw [List.all_append, Bool.and_eq_true]
  refine ⟨?_, ?_⟩
  · rw [List.all_eq_true] at hwf ⊢
    intro e he
    exact keyBelow_mono e.1 p.nextKey (p.nextKey + 1) (by omega) (hwf e he)
  · simp [keyBelow]

theorem storeForOffline_add (env : Env) (db : OfflineDB) (s : StoreName) (d : Obj)
    (hopen : env.openFails = false) (hwrite : env.writeFails = false)
    (hid : getField d "id" = none) (hwf : (db.part s).wf = true)
    (hauto : s.autoIncrement = true) :
    storeForOffline env db s d
      = .resolved
          (db.setPart s
            { entries := (db.part s).entries
                ++ [(JValue.num (db.part s).nextKey,
                     (d ++ [("timestamp", JValue.str env.now), ("pendingSync", JValue.bool true)])
                       ++ [("id", JValue.num (db.part s).nextKey)])],
              nextKey := (db.part s).nextKey + 1 })
          env.syncSupported := by
  have hrid : getField
      (d ++ [("timestamp", JValue.str env.now), ("pendingSync", JValue.bool true)]) "id"
      = none := by
    rw [getField_record]
    simp [hid]
  simp only [storeForOffline, hopen, hid, truthy, Bool.false_eq_true, if_false, hauto]
  rw [add_eq_of_wf _ _ hrid hwf]
  simp [hwrite]

theorem storeForOffline_put (env : Env) (db : OfflineDB) (s : StoreName) (d : Obj) (v : JValue)
    (hopen : env.openFails = false) (hwrite : env.writeFails = false)
    (hid : getField d "id" = some v) (htr : truthy (some v) = true) (hvk : validKey v = true) :
    storeForOffline env db s d
      = .resolved
          (db.setPart s ((db.part s).put v
            (d ++ [("timestamp", JValue.str env.now), ("pendingSync", JValue.bool true)])))
          env.syncSupported := by
  have hrid : getField
      (d ++ [("timestamp", JValue.str env.now), ("pendingSync", JValue.bool true)]) "id"
      = some v := by
    rw [getField_record]
    simp [hid]
  simp [storeForOffline, hopen, hid, htr, hrid, hvk, hwrite]

theorem sync_keeps_failed (net : JValue → Obj → FetchOutcome) (db : OfflineDB)
    (hnodup : ((pendingEntries db).map Prod.fst).Nodup) (e : JValue × Obj)
    (he : e ∈ pendingEntries db) (hfail : deliveredOk net e = false) :
    e ∈ pendingEntries (syncPendingSubmissions net db).db := by
  rw [syncPendingSubmissions, syncLoop_pending]
  rw [List.mem_filter]
  refine ⟨he, ?_⟩
  rw [Bool.not_eq_eq_eq_not, Bool.not_true, List.any_eq_false]
  intro p hp hcontra
  rw [Bool.and_eq_true] at hcontra
  have hfst : e.1 = p.1 := by simpa using hcontra.2
  have : e = p := List.inj_on_of_nodup_map hnodup he hp hfst
  rw [this] at hfail
  rw [hfail] at hcontra
  exact Bool.false_ne_true hcontra.1

theorem sync_removes_ok (net : JValue → Obj → FetchOutcome) (db : OfflineDB)
    (e : JValue × Obj) (he : e ∈ pendingEntries db) (hok : deliveredOk net e = true) :
    e ∉ pendingEntries (syncPendingSubmissions net db).db := by
  rw [syncPendingSubmissions, syncLoop_pending]
  intro hmem
  rw [List.mem_filter] at hmem
  have h2 := hmem.2
  rw [Bool.not_eq_eq_eq_not, Bool.not_true, List.any_eq_false] at h2
  exact h2 e he (by simp [hok])

theorem part_setPart (db : OfflineDB) (s : StoreName) (p : Partition) :
    (db.setPart s p).part s = p := by
  cases s <;> rfl

theorem pendingEntries_part (db : OfflineDB) :
    pendingEntries db = (db.part .pendingSubmissions).entries := rfl

theorem storeForOffline_add_step (env : Env) (db : OfflineDB) (d : Obj)
    (hopen : env.openFails = false) (hwrite : env.writeFails = false)
    (hid : getField d "id" = none) (hwf : (db.part .pendingSubmissions).wf = true) :
    ∃ db' : OfflineDB,
      storeForOffline env db .pendingSubmissions d = .resolved db' env.syncSupported ∧
      pendingEntries db'
        = pendingEntries db
          ++ [(JValue.num (db.part .pendingSubmissions).nextKey,
               (d ++ [("timestamp", JValue.str env.now), ("pendingSync", JValue.bool true)])
                 ++ [("id", JValue.num (db.part .pendingSubmissions).nextKey)])] ∧
      (db'.part .pendingSubmissions).nextKey = (db.part .pendingSubmissions).nextKey + 1 ∧
      (db'.part .pendingSubmissions).wf = true := by
  refine ⟨_, storeForOffline_add env db .pendingSubmissions d hopen hwrite hid hwf rfl,
    ?_, ?_, ?_⟩
  · rw [pendingEntries_part, pendingEntries_part, part_setPart]
  · rw [part_setPart]
  · rw [part_setPart]
    exact wf_after_add (db.part .pendingSubmissions) _ hwf

theorem add_ok_mem (p : Partition) (autoInc : Bool) (r : Obj) (p' : Partition) (k : JValue)
    (h : p.add autoInc r = .ok p' k) :
    ∃ r', (k, r') ∈ p'.entries ∧ ∀ key, key ≠ "id" → getField r' key = getField r key := by
  unfold Partition.add at h
  cases hg : getField r "id" with
  | none =>
    rw [hg] at h
    cases hai : autoInc with
    | false =>
      rw [hai] at h
      simp at h
    | true =>
      rw [hai] at h
      by_cases hk : hasKey p.entries (JValue.num p.nextKey)
      · simp [hk] at h
      · simp only [hk, Bool.false_eq_true, if_true, if_false, AddResult.ok.injEq] at h
        obtain ⟨hp, hkk⟩ := h
        refine ⟨r ++ [("id", JValue.num p.nextKey)], ?_, ?_⟩
        · rw [← hp, ← hkk]
          simp
        · intro key hkey
          rw [getField_append_single]
          simp [hkey]
  | some v =>
    rw [hg] at h
    by_cases hv : validKey v
    · by_cases hk : hasKey p.entries v
      · simp [hv, hk] at h
      · simp only [hv, hk, Bool.false_eq_true, if_true, if_false, AddResult.ok.injEq] at h
        obtain ⟨hp, hkk⟩ := h
        refine ⟨r, ?_, fun key _ => rfl⟩
        rw [← hp, ← hkk]
        simp
    · simp [hv] at h

theorem storeSubmission_resolved (env : Env) (db db' : OfflineDB) (payload : JValue)
    (flag : Bool) (h : storeSubmission env db payload = .resolved db' flag) :
    ∃ p k,
      db.pendingSubmissions.add true [("data", payload), ("timestamp", JValue.str env.now)]
        = .ok p k ∧
      db' = db.setPart .pendingSubmissions p := by
  unfold storeSubmission at h
  by_cases ho : env.openFails
  · simp [ho] at h
  · simp only [ho, Bool.false_eq_true, if_false] at h
    cases hadd : db.pendingSubmissions.add true
        [("data", payload), ("timestamp", JValue.str env.now)] with
    | invalidKey => rw [hadd] at h; cases h
    | keyExists => rw [hadd] at h; cases h
    | ok p k =>
      rw [hadd] at h
      by_cases hw : env.writeFails
      · simp [hw] at h
      · simp only [hw, Bool.false_eq_true, if_false, StoreOutcome.resolved.injEq] at h
        exact ⟨p, k, rfl, h.1.symm⟩

theorem storeForOffline_resolved_inv (env : Env) (db : OfflineDB) (s : StoreName) (d : Obj)
    (db' : OfflineDB) (flag : Bool) (h : storeForOffline env db s d = .resolved db' flag) :
    flag = env.syncSupported ∧
    ∃ (k : JValue) (r : Obj), (k, r) ∈ (db'.part s).entries ∧
      getField r "pendingSync" = some (JValue.bool true) ∧
      getField r "timestamp" = some (JValue.str env.now) ∧
      (∀ key, key ≠ "id" → key ≠ "timestamp" → key ≠ "pendingSync" →
          getField r key = getField d key) := by
  unfold storeForOffline at h
  by_cases ho : env.openFails
  · simp [ho] at h
  · simp only [ho, Bool.false_eq_true, if_false] at h
    by_cases ht : truthy (getField d "id")
    · simp only [ht, if_true] at h
      cases hm : getField
          (d ++ [("timestamp", JValue.str env.now), ("pendingSync", JValue.bool true)]) "id" with
      | none => simp [hm] at h
      | some v =>
        simp only [hm] at h
        by_cases hv : validKey v
        · by_cases hw : env.writeFails
          · simp [hv, hw] at h
          · simp only [hv, hw, if_true, Bool.false_eq_true, if_false,
              StoreOutcome.resolved.injEq] at h
            obtain ⟨hdb, hflag⟩ := h
            refine ⟨hflag.symm, v,
              d ++ [("timestamp", JValue.str env.now), ("pendingSync", JValue.bool true)],
              ?_, ?_, ?_, ?_⟩
            · rw [← hdb, part_setPart]
              exact mem_putEntry_self _ _ _
            · rw [getField_record]
              simp
            · rw [getField_record]
              simp
            · intro key h1 h2 h3
              rw [getField_record]
              simp [h2, h3]
        · simp [hv] at h
    · simp only [ht, Bool.false_eq_true, if_false] at h
      cases hadd : (db.part s).add s.autoIncrement
          (d ++ [("timestamp", JValue.str env.now), ("pendingSync", JValue.bool true)]) with
      | invalidKey => simp [hadd] at h
      | keyExists => simp [hadd] at h
      | ok p k =>
        simp only [hadd] at h
        by_cases hw : env.writeFails
        · simp [hw] at h
        · simp only [hw, Bool.false_eq_true, if_false, StoreOutcome.resolved.injEq] at h
          obtain ⟨hdb, hflag⟩ := h
          obtain ⟨r', hmem, hfields⟩ := add_ok_mem _ _ _ _ _ hadd
          refine ⟨hflag.symm, k, r', ?_, ?_, ?_, ?_⟩
          · rw [← hdb, part_setPart]
            exact hmem
          · rw [hfields "pendingSync" (by decide), getField_record]
            simp
          · rw [hfields "timestamp" (by decide), getField_record]
            simp
          · intro key h1 h2 h3
            rw [hfields key h1, getField_record]
            simp [h2, h3]

/-! Claim theorems. -/

/-- C1: in a sync pass triggered by a deferred-sync event tagged
"submit-answer" (with the store available), every pending record whose
delivery attempt returns an HTTP 2xx status is deleted from
pendingSubmissions and a user-visible notification titled
"Submission Synced" is raised for it; every record whose attempt returns
a non-2xx status or a network error remains queued; and every pending
record receives a delivery attempt (no early abort). -/
theorem sync_event_per_record (net : JValue → Obj → FetchOutcome) (db : OfflineDB)
    (hnodup : ((pendingEntries db).map Prod.fst).Nodup) :
    (∀ e ∈ pendingEntries db, deliveredOk net e = true →
        e ∉ pendingEntries (handleSyncEvent "submit-answer" true net db).db) ∧
    (∀ e ∈ pendingEntries db, deliveredOk net e = false →
        e ∈ pendingEntries (handleSyncEvent "submit-answer" true net db).db) ∧
    (handleSyncEvent "submit-answer" true net db).notifications
      = ((pendingEntries db).filter (fun e => deliveredOk net e)).map
          (fun _ => "Submission Synced") ∧
    (handleSyncEvent "submit-answer" true net db).requests.length
      = (pendingEntries db).length := by
  have hev : handleSyncEvent "submit-answer" true net db = syncPendingSubmissions net db := by
    simp [handleSyncEvent, runSync]
  rw [hev]
  refine ⟨?_, ?_, ?_, ?_⟩
  · intro e he hok
    exact sync_removes_ok net db e he hok
  · intro e he hf
    exact sync_keeps_failed net db hnodup e he hf
  · rw [syncPendingSubmissions, syncLoop_notifications]
    simp
  · rw [syncPendingSubmissions, syncLoop_requests]
    simp

/-- Witness for C1: a queue holding one record whose delivery returns
HTTP 200 ends the pass with exactly one "Submission Synced" notification. -/
theorem sync_event_per_record_witness :
    (handleSyncEvent "submit-answer" true (fun _ _ => FetchOutcome.http 200)
        ⟨{ entries := [(JValue.num 1,
             [("data", JValue.obj [("questionPaperId", JValue.num 7)]),
              ("timestamp", JValue.str "T"), ("id", JValue.num 1)])], nextKey := 2 },
          emptyPartition, emptyPartition⟩).notifications
      = ["Submission Synced"] := by
  have h := sync_event_per_record (fun _ _ => FetchOutcome.http 200)
    ⟨{ entries := [(JValue.num 1,
         [("data", JValue.obj [("questionPaperId", JValue.num 7)]),
          ("timestamp", JValue.str "T"), ("id", JValue.num 1)])], nextKey := 2 },
      emptyPartition, emptyPartition⟩ (by decide)
  rw [h.2.2.1]
  decide

/-- C2: a record leaves the pendingSubmissions queue during a sync pass
only when its own delivery attempt returned an HTTP 2xx response; the
only other removal is the explicit local delete (removeSubmission), which
removes exactly the record with the given key. -/
theorem pending_removed_only_after_2xx (net : JValue → Obj → FetchOutcome) (db : OfflineDB)
    (hnodup : ((pendingEntries db).map Prod.fst).Nodup) :
    (∀ e ∈ pendingEntries db,
        e ∉ pendingEntries (syncPendingSubmissions net db).db →
        deliveredOk net e = true) ∧
    (∀ k, pendingEntries (removeSubmission db k)
        = (pendingEntries db).filter (fun e => !(e.1 == k))) := by
  refine ⟨?_, fun k => pendingEntries_removeSubmission db k⟩
  intro e he hout
  cases hok : deliveredOk net e with
  | true => rfl
  | false => exact absurd (sync_keeps_failed net db hnodup e he hok) hout

/-- Witness for C2: with a single queued record whose delivery returns
HTTP 200, the record's disappearance implies its delivery succeeded. -/
theorem pending_removed_only_after_2xx_witness :
    deliveredOk (fun _ _ => FetchOutcome.http 204)
      (JValue.num 1, [("a", JValue.num 1), ("id", JValue.num 1)]) = true := by
  have h := pending_removed_only_after_2xx (fun _ _ => FetchOutcome.http 204)
    ⟨{ entries := [(JValue.num 1, [("a", JValue.num 1), ("id", JValue.num 1)])], nextKey := 2 },
      emptyPartition, emptyPartition⟩ (by decide)
  exact h.1 (JValue.num 1, [("a", JValue.num 1), ("id", JValue.num 1)])
    (by decide) (by decide)

/-- C4: every delivery request of a sync pass targets the constant URL
"/api/answer-submissions"; the server's route table registers no route
with that path (for any method), while the submission-creation route it
does register is POST "/api/submissions". -/
theorem sync_targets_unregistered_route :
    (∀ (net : JValue → Obj → FetchOutcome) (db : OfflineDB) (req : String × Option JValue),
        req ∈ (syncPendingSubmissions net db).requests →
        req.1 = "/api/answer-submissions") ∧
    (∀ m : String, (m, "/api/answer-submissions") ∉ serverRoutes) ∧
    ("POST", "/api/submissions") ∈ serverRoutes := by
  refine ⟨?_, ?_, by simp [serverRoutes]⟩
  · intro net db req hreq
    rw [syncPendingSubmissions, syncLoop_requests] at hreq
    simp only [List.nil_append, List.mem_map] at hreq
    obtain ⟨e, _, hh⟩ := hreq
    rw [← hh]
    rfl
  · intro m hm
    simp [serverRoutes] at hm

/-- Witness for C4: a concrete sync request carries the unregistered URL,
and no POST route with that path exists in the server's table. -/
theorem sync_targets_unregistered_route_witness :
    (("/api/answer-submissions", (none : Option JValue)).1 = "/api/answer-submissions") ∧
    (("POST", "/api/answer-submissions") ∉ serverRoutes) := by
  refine ⟨?_, sync_targets_unregistered_route.2.1 "POST"⟩
  exact sync_targets_unregistered_route.1 (fun _ _ => FetchOutcome.netError)
    ⟨{ entries := [(JValue.num 1, [("id", JValue.num 1)])], nextKey := 2 },
      emptyPartition, emptyPartition⟩
    ("/api/answer-submissions", none) (by decide)

/-- C9: for a same-origin request whose path starts with "/api/" and
whose network fetch fails, the router responds with the synthesized
offline response — HTTP 503, Content-Type application/json, and the fixed
JSON error body — and an API request never has a raw network exception
propagated to the caller. -/
theorem api_offline_503 (pathname : String) (isNav : Bool) (env : FetchEnv)
    (hapi : isApiRequest pathname = true) :
    (env.netResult = none →
        handleFetch true isNav pathname env = .respond (some offlineResponse) ∧
        offlineResponse.status = 503 ∧
        offlineResponse.contentType = "application/json" ∧
        offlineResponse.body
          = "\x7b\"error\":\"You are offline. Please try again when you have an internet connection.\"\x7d") ∧
    handleFetch true isNav pathname env ≠ .networkErrorPropagated := by
  constructor
  · intro hnet
    refine ⟨?_, rfl, rfl, rfl⟩
    simp [handleFetch, hapi, hnet]
  · cases hnet : env.netResult <;> simp [handleFetch, hapi, hnet]

/-- Witness for C9: the offline API request "/api/question-papers" gets
the synthesized 503 response. -/
theorem api_offline_503_witness :
    handleFetch true false "/api/question-papers" ⟨none, none, none⟩
      = .respond (some offlineResponse) :=
  ((api_offline_503 "/api/question-papers" false ⟨none, none, none⟩ (by decide)).1 rfl).1

/-- C8: records captured in order [a, b, c] into pendingSubmissions are
assigned strictly increasing keys, getAll (getOfflineData) returns them
after the pre-existing records in that same insertion order, and a sync
pass attempts delivery in exactly the queue's order (the request list is
the ordered map of the queue); the loop is sequential by construction. -/
theorem insertion_order_preserved (env : Env) (db : OfflineDB) (a b c : Obj)
    (hopen : env.openFails = false) (hwrite : env.writeFails = false)
    (hread : env.readFails = false)
    (hwf : (db.part .pendingSubmissions).wf = true)
    (ha : getField a "id" = none) (hb : getField b "id" = none)
    (hc : getField c "id" = none) :
    ∃ (db1 db2 db3 : OfflineDB) (n : Int),
      storeForOffline env db .pendingSubmissions a = .resolved db1 env.syncSupported ∧
      storeForOffline env db1 .pendingSubmissions b = .resolved db2 env.syncSupported ∧
      storeForOffline env db2 .pendingSubmissions c = .resolved db3 env.syncSupported ∧
      pendingEntries db3
        = pendingEntries db
          ++ [ (JValue.num n,
                (a ++ [("timestamp", JValue.str env.now), ("pendingSync", JValue.bool true)])
                  ++ [("id", JValue.num n)])
             , (JValue.num (n + 1),
                (b ++ [("timestamp", JValue.str env.now), ("pendingSync", JValue.bool true)])
                  ++ [("id", JValue.num (n + 1))])
             , (JValue.num (n + 1 + 1),
                (c ++ [("timestamp", JValue.str env.now), ("pendingSync", JValue.bool true)])
                  ++ [("id", JValue.num (n + 1 + 1))]) ] ∧
      getOfflineData env db3 .pendingSubmissions = .ok ((pendingEntries db3).map Prod.snd) ∧
      (∀ net, (syncPendingSubmissions net db3).requests
          = (pendingEntries db3).map (fun e => deliveryRequest e.2)) := by
  obtain ⟨db1, h1, p1, k1, w1⟩ := storeForOffline_add_step env db a hopen hwrite ha hwf
  obtain ⟨db2, h2, p2, k2, w2⟩ := storeForOffline_add_step env db1 b hopen hwrite hb w1
  obtain ⟨db3, h3, p3, k3, w3⟩ := storeForOffline_add_step env db2 c hopen hwrite hc w2
  refine ⟨db1, db2, db3, (db.part .pendingSubmissions).nextKey, h1, h2, h3, ?_, ?_, ?_⟩
  · rw [p3, p2, p1, k2, k1]
    simp
  · simp [getOfflineData, hopen, hread, pendingEntries_part]
  · intro net
    rw [syncPendingSubmissions, syncLoop_requests]
    simp

/-- Witness for C8: three concrete records captured into an empty queue
come back in capture order with keys 1, 2, 3. -/
theorem insertion_order_preserved_witness :
    ∃ (db1 db2 db3 : OfflineDB) (n : Int),
      storeForOffline ⟨false, false, false, true, "T0"⟩ emptyDB .pendingSubmissions
          [("A", JValue.num 1)] = .resolved db1 true ∧
      storeForOffline ⟨false, false, false, true, "T0"⟩ db1 .pendingSubmissions
          [("B", JValue.num 2)] = .resolved db2 true ∧
      storeForOffline ⟨false, false, false, true, "T0"⟩ db2 .pendingSubmissions
          [("C", JValue.num 3)] = .resolved db3 true ∧
      pendingEntries db3
        = pendingEntries emptyDB
          ++ [ (JValue.num n,
                ([("A", JValue.num 1)]
                  ++ [("timestamp", JValue.str "T0"), ("pendingSync", JValue.bool true)])
                  ++ [("id", JValue.num n)])
             , (JValue.num (n + 1),
                ([("B", JValue.num 2)]
                  ++ [("timestamp", JValue.str "T0"), ("pendingSync", JValue.bool true)])
                  ++ [("id", JValue.num (n + 1))])
             , (JValue.num (n + 1 + 1),
                ([("C", JValue.num 3)]
                  ++ [("timestamp", JValue.str "T0"), ("pendingSync", JValue.bool true)])
                  ++ [("id", JValue.num (n + 1 + 1))]) ] ∧
      getOfflineData ⟨false, false, false, true, "T0"⟩ db3 .pendingSubmissions
        = .ok ((pendingEntries db3).map Prod.snd) ∧
      (∀ net, (syncPendingSubmissions net db3).requests
          = (pendingEntries db3).map (fun e => deliveryRequest e.2)) :=
  insertion_order_preserved ⟨false, false, false, true, "T0"⟩ emptyDB
    [("A", JValue.num 1)] [("B", JValue.num 2)] [("C", JValue.num 3)]
    rfl rfl rfl (by decide) (by decide) (by decide) (by decide)

/-- The round-trip scenario of the spec, executed on concrete input: an
empty database, one capture of a record without an id, then a read-back
of the pendingSubmissions partition. -/
def roundTripDemo : List Obj :=
  match storeForOffline ⟨false, false, false, true, "T0"⟩ emptyDB .pendingSubmissions
      [("questionPaperId", JValue.num 7)] with
  | .resolved db1 _ =>
    match getOfflineData ⟨false, false, false, true, "T0"⟩ db1 .pendingSubmissions with
    | .ok rs => rs
    | .error _ => []
  | .rejected _ => []

/-- Counterexample to C7 as stated: the read-back record is not equal to
the input plus an assigned id and a timestamp; it additionally carries
pendingSync := true, so it differs (extensionally) from the input
augmented with exactly the assigned id 1 and the capture timestamp. -/
theorem roundtrip_counterexample :
    roundTripDemo
      = [[("questionPaperId", JValue.num 7), ("timestamp", JValue.str "T0"),
          ("pendingSync", JValue.bool true), ("id", JValue.num 1)]] ∧
    getField (roundTripDemo.headD []) "pendingSync" = some (JValue.bool true) ∧
    objEquivB (roundTripDemo.headD [])
      ([("questionPaperId", JValue.num 7)]
        ++ [("id", JValue.num 1), ("timestamp", JValue.str "T0")]) = false := by
  refine ⟨by decide, by decide, by decide⟩

/-- C7 (amended): storing a record without an id via put (storeForOffline)
into the auto-increment partition (pendingSubmissions) and reading the
partition back via getAll (getOfflineData) before any delete returns the
previous records followed by one new record equal to the input plus the
assigned id, the capture timestamp, and pendingSync set to true, with
every other field of the input unchanged; on the cached partitions,
which are created without a key generator, the same id-less store.add
throws DataError and the call rejects with nothing stored. -/
theorem roundtrip_put_getAll (env : Env) (db : OfflineDB) (s : StoreName) (d : Obj)
    (hopen : env.openFails = false) (hwrite : env.writeFails = false)
    (hread : env.readFails = false) (hid : getField d "id" = none)
    (hwf : (db.part s).wf = true) :
    (s.autoIncrement = true →
      ∃ (db' : OfflineDB) (r : Obj),
        storeForOffline env db s d = .resolved db' env.syncSupported ∧
        getOfflineData env db' s = .ok ((db.part s).entries.map Prod.snd ++ [r]) ∧
        getField r "id" = some (JValue.num (db.part s).nextKey) ∧
        getField r "timestamp" = some (JValue.str env.now) ∧
        getField r "pendingSync" = some (JValue.bool true) ∧
        (∀ k, k ≠ "id" → k ≠ "timestamp" → k ≠ "pendingSync" →
            getField r k = getField d k)) ∧
    (s.autoIncrement = false → storeForOffline env db s d = .rejected "DataError") := by
  have hrid : getField
      (d ++ [("timestamp", JValue.str env.now), ("pendingSync", JValue.bool true)]) "id"
      = none := by
    rw [getField_record]
    simp [hid]
  constructor
  · intro hauto
    refine ⟨_,
      (d ++ [("timestamp", JValue.str env.now), ("pendingSync", JValue.bool true)])
        ++ [("id", JValue.num (db.part s).nextKey)],
      storeForOffline_add env db s d hopen hwrite hid hwf hauto, ?_, ?_, ?_, ?_, ?_⟩
    · simp [getOfflineData, hopen, hread, part_setPart]
    · rw [getField_append_single]
      simp
    · rw [getField_append_single, getField_record]
      simp
    · rw [getField_append_single, getField_record]
      simp
    · intro k h1 h2 h3
      rw [getField_append_single, getField_record]
      simp [h1, h2, h3]
  · intro hauto
    simp only [storeForOffline, hopen, hid, truthy, Bool.false_eq_true, if_false, hauto]
    rw [add_not_auto _ _ hrid]

/-- Witness for C7's amended round trip: a concrete capture into the
empty pendingSubmissions store reads back with id 1, the timestamp and
pendingSync; the same id-less capture into cachedQuestionPapers rejects
with DataError. -/
theorem roundtrip_put_getAll_witness :
    (∃ (db' : OfflineDB) (r : Obj),
        storeForOffline ⟨false, false, false, true, "T0"⟩ emptyDB .pendingSubmissions
            [("questionPaperId", JValue.num 7)] = .resolved db' true ∧
        getOfflineData ⟨false, false, false, true, "T0"⟩ db' .pendingSubmissions
          = .ok ((emptyDB.part .pendingSubmissions).entries.map Prod.snd ++ [r]) ∧
        getField r "id" = some (JValue.num (emptyDB.part .pendingSubmissions).nextKey) ∧
        getField r "timestamp" = some (JValue.str "T0") ∧
        getField r "pendingSync" = some (JValue.bool true) ∧
        (∀ k, k ≠ "id" → k ≠ "timestamp" → k ≠ "pendingSync" →
            getField r k = getField [("questionPaperId", JValue.num 7)] k)) ∧
    storeForOffline ⟨false, false, false, true, "T0"⟩ emptyDB .cachedQuestionPapers
        [("title", JValue.str "Calculus")] = .rejected "DataError" := by
  constructor
  · exact (roundtrip_put_getAll ⟨false, false, false, true, "T0"⟩ emptyDB .pendingSubmissions
      [("questionPaperId", JValue.num 7)] rfl rfl rfl (by decide) (by decide)).1 rfl
  · exact (roundtrip_put_getAll ⟨false, false, false, true, "T0"⟩ emptyDB .cachedQuestionPapers
      [("title", JValue.str "Calculus")] rfl rfl rfl (by decide) (by decide)).2 rfl

/-- C5: a record queued by storeForOffline carries the submission fields
at its top level and has no "data" property, so the body the sync pass
sends for it — JSON.stringify of the record's "data" property — is
undefined (no body); by contrast, a record queued by the service worker's
own storeSubmission wraps the payload as a "data" property and its sync
body is exactly that payload. -/
theorem sync_body_missing_for_captured_records (env : Env) (db : OfflineDB) (d : Obj)
    (hopen : env.openFails = false) (hwrite : env.writeFails = false)
    (hid : getField d "id" = none) (hdata : getField d "data" = none)
    (hwf : (db.part .pendingSubmissions).wf = true) :
    (∃ (db' : OfflineDB) (k : JValue) (r : Obj),
        storeForOffline env db .pendingSubmissions d = .resolved db' env.syncSupported ∧
        pendingEntries db' = pendingEntries db ++ [(k, r)] ∧
        getField r "data" = none ∧
        deliveryRequest r = ("/api/answer-submissions", none)) ∧
    (∀ (env2 : Env) (db2 db3 : OfflineDB) (payload : JValue) (flag : Bool),
        storeSubmission env2 db2 payload = .resolved db3 flag →
        ∃ (k2 : JValue) (r2 : Obj), (k2, r2) ∈ pendingEntries db3 ∧
          deliveryRequest r2 = ("/api/answer-submissions", some payload)) := by
  constructor
  · obtain ⟨db', h1, p1, _, _⟩ := storeForOffline_add_step env db d hopen hwrite hid hwf
    have hr : getField
        ((d ++ [("timestamp", JValue.str env.now), ("pendingSync", JValue.bool true)])
          ++ [("id", JValue.num (db.part .pendingSubmissions).nextKey)]) "data" = none := by
      rw [getField_append_single, getField_record]
      simp [hdata]
    refine ⟨db', _, _, h1, p1, hr, ?_⟩
    unfold deliveryRequest
    rw [hr]
  · intro env2 db2 db3 payload flag h
    obtain ⟨p, k, hadd, hdb⟩ := storeSubmission_resolved env2 db2 db3 payload flag h
    obtain ⟨r', hmem, hfields⟩ := add_ok_mem _ _ _ _ _ hadd
    refine ⟨k, r', ?_, ?_⟩
    · rw [hdb]
      exact hmem
    · unfold deliveryRequest
      rw [hfields "data" (by decide)]
      simp [getField]

/-- Witness for C5: a concrete captured submission produces a queued
record with no "data" property whose sync delivery has no body. -/
theorem sync_body_missing_for_captured_records_witness :
    ∃ (db' : OfflineDB) (k : JValue) (r : Obj),
      storeForOffline ⟨false, false, false, true, "T0"⟩ emptyDB .pendingSubmissions
          [("questionPaperId", JValue.num 7), ("fileName", JValue.str "ans.pdf"),
           ("fileContent", JValue.str "AAA=")] = .resolved db' true ∧
      pendingEntries db' = pendingEntries emptyDB ++ [(k, r)] ∧
      getField r "data" = none ∧
      deliveryRequest r = ("/api/answer-submissions", none) :=
  (sync_body_missing_for_captured_records ⟨false, false, false, true, "T0"⟩ emptyDB
    [("questionPaperId", JValue.num 7), ("fileName", JValue.str "ans.pdf"),
     ("fileContent", JValue.str "AAA=")]
    rfl rfl (by decide) (by decide) (by decide)).1

/-- Counterexample to C6 as stated: in the localStorage revision of
storeForOffline, a failing write is swallowed — the call resolves
successfully while the data is discarded. -/
theorem capture_silent_loss_counterexample :
    (storeForOfflineLocal true 111 [] [("questionPaperId", JValue.num 7)]).resolved = true ∧
    (storeForOfflineLocal true 111 [] [("questionPaperId", JValue.num 7)]).items = [] :=
  ⟨rfl, rfl⟩

/-- C6 (amended): in the IndexedDB revision of storeForOffline, an open
failure rejects with "Error opening database", a write failure rejects
(with "Error storing data" or the thrown DataError), and whenever the
call resolves, the record — with all non-bookkeeping fields of the input
intact — is present in the partition; the localStorage revision instead
swallows write failures and resolves while discarding the data. -/
theorem storeForOffline_failures_surface (env : Env) (db : OfflineDB) (s : StoreName)
    (d : Obj) :
    (env.openFails = true → storeForOffline env db s d = .rejected "Error opening database") ∧
    (env.openFails = false → env.writeFails = true →
        ∃ msg, storeForOffline env db s d = .rejected msg) ∧
    (∀ (db' : OfflineDB) (flag : Bool),
        storeForOffline env db s d = .resolved db' flag →
        ∃ (k : JValue) (r : Obj), (k, r) ∈ (db'.part s).entries ∧
          (∀ key, key ≠ "id" → key ≠ "timestamp" → key ≠ "pendingSync" →
              getField r key = getField d key)) ∧
    (∀ (wfail : Bool) (nowMs : Int) (items : List Obj),
        (storeForOfflineLocal wfail nowMs items d).resolved = true) := by
  refine ⟨?_, ?_, ?_, ?_⟩
  · intro h
    simp [storeForOffline, h]
  · intro ho hw
    unfold storeForOffline
    simp only [ho, Bool.false_eq_true, if_false]
    by_cases ht : truthy (getField d "id")
    · simp only [ht, if_true]
      cases hm : getField
          (d ++ [("timestamp", JValue.str env.now), ("pendingSync", JValue.bool true)]) "id" with
      | none => exact ⟨"DataError", by simp [hm]⟩
      | some v =>
        by_cases hv : validKey v
        · exact ⟨"Error storing data", by simp [hm, hv, hw]⟩
        · exact ⟨"DataError", by simp [hm, hv]⟩
    · simp only [ht, Bool.false_eq_true, if_false]
      cases hadd : (db.part s).add s.autoIncrement
          (d ++ [("timestamp", JValue.str env.now), ("pendingSync", JValue.bool true)]) with
      | invalidKey => exact ⟨"DataError", by simp [hadd]⟩
      | keyExists => exact ⟨"Error storing data", by simp [hadd]⟩
      | ok p k => exact ⟨"Error storing data", by simp [hadd, hw]⟩
  · intro db' flag h
    obtain ⟨_, k, r, hmem, _, _, hother⟩ :=
      storeForOffline_resolved_inv env db s d db' flag h
    exact ⟨k, r, hmem, hother⟩
  · intro wfail nowMs items
    cases wfail <;> rfl

/-- Witness for C6: a denied open is surfaced to the caller as a
rejection, and a failing localStorage write still resolves. -/
theorem storeForOffline_failures_surface_witness :
    (storeForOffline ⟨true, false, false, true, "T0"⟩ emptyDB .pendingSubmissions
        [("questionPaperId", JValue.num 7)] = .rejected "Error opening database") ∧
    (∃ msg, storeForOffline ⟨false, true, false, true, "T0"⟩ emptyDB .pendingSubmissions
        [("questionPaperId", JValue.num 7)] = .rejected msg) ∧
    (storeForOfflineLocal true 42 [] [("questionPaperId", JValue.num 7)]).resolved = true := by
  refine ⟨?_, ?_, ?_⟩
  · exact (storeForOffline_failures_surface ⟨true, false, false, true, "T0"⟩ emptyDB
      .pendingSubmissions [("questionPaperId", JValue.num 7)]).1 rfl
  · exact (storeForOffline_failures_surface ⟨false, true, false, true, "T0"⟩ emptyDB
      .pendingSubmissions [("questionPaperId", JValue.num 7)]).2.1 rfl rfl
  · exact (storeForOffline_failures_surface ⟨false, true, false, true, "T0"⟩ emptyDB
      .pendingSubmissions [("questionPaperId", JValue.num 7)]).2.2.2 true 42 []

/-- C10: storeForOffline applies the same side effects whichever
partition is written — every record it successfully persists, into any
store name, carries pendingSync := true and the capture timestamp, and a
resolving call requests registration of the background-sync tag
"submit-answer" exactly when the platform supports it, independent of the
partition; in particular a record carrying a valid truthy id (the shape
the cached stores are given) is stored identically, with the same
registration, on every partition. -/
theorem storeForOffline_uniform_across_partitions (env : Env) (db : OfflineDB) (d : Obj) :
    ∀ s : StoreName,
      (∀ (db' : OfflineDB) (flag : Bool),
          storeForOffline env db s d = .resolved db' flag →
          flag = env.syncSupported ∧
          ∃ (k : JValue) (r : Obj), (k, r) ∈ (db'.part s).entries ∧
            getField r "pendingSync" = some (JValue.bool true) ∧
            getField r "timestamp" = some (JValue.str env.now)) ∧
      (∀ v : JValue, getField d "id" = some v → truthy (some v) = true →
          validKey v = true → env.openFails = false → env.writeFails = false →
          storeForOffline env db s d
            = .resolved
                (db.setPart s ((db.part s).put v
                  (d ++ [("timestamp", JValue.str env.now), ("pendingSync", JValue.bool true)])))
                env.syncSupported) := by
  intro s
  constructor
  · intro db' flag h
    obtain ⟨hflag, k, r, hmem, hps, hts, _⟩ :=
      storeForOffline_resolved_inv env db s d db' flag h
    exact ⟨hflag, k, r, hmem, hps, hts⟩
  · intro v hid htr hvk hopen hwrite
    exact storeForOffline_put env db s d v hopen hwrite hid htr hvk

/-- Witness for C10: a concrete record with server id 42 captured into
cachedQuestionPapers resolves with the sync-tag registration requested,
and the stored record carries pendingSync and the timestamp. -/
theorem storeForOffline_uniform_across_partitions_witness :
    ∃ db' : OfflineDB,
      storeForOffline ⟨false, false, false, true, "T0"⟩ emptyDB .cachedQuestionPapers
          [("id", JValue.num 42), ("title", JValue.str "Calculus")] = .resolved db' true ∧
      ∃ (k : JValue) (r : Obj), (k, r) ∈ (db'.part .cachedQuestionPapers).entries ∧
        getField r "pendingSync" = some (JValue.bool true) ∧
        getField r "timestamp" = some (JValue.str "T0") := by
  have h := storeForOffline_uniform_across_partitions ⟨false, false, false, true, "T0"⟩
    emptyDB [("id", JValue.num 42), ("title", JValue.str "Calculus")] .cachedQuestionPapers
  have h2 := h.2 (JValue.num 42) (by decide) (by decide) (by decide) rfl rfl
  obtain ⟨hflag, k, r, hmem, hps, hts⟩ := h.1 _ _ h2
  exact ⟨_, h2, k, r, hmem, hps, hts⟩

/-- Counterexample to C3 as stated: a network-level failure of the submit
action persists nothing — the offline database is untouched and the user
gets a failure toast, not a queued record. -/
theorem offline_capture_counterexample :
    (submitAnswerFlow FetchOutcome.netError emptyDB).db = emptyDB ∧
    pendingEntries (submitAnswerFlow FetchOutcome.netError emptyDB).db = [] ∧
    (submitAnswerFlow FetchOutcome.netError emptyDB).toast = "Failed to submit answer" :=
  ⟨rfl, rfl, rfl⟩

/-- C3 (amended): the submit flow makes one immediate delivery attempt to
POST /api/submissions and never writes the offline store, whatever the
network outcome; storeForOffline, when called, persists unconditionally,
with no preceding network attempt — no code path persists conditionally
on a network-level failure. -/
theorem submit_never_persists (net : FetchOutcome) (db : OfflineDB) :
    (submitAnswerFlow net db).db = db ∧
    (submitAnswerFlow net db).request = ("POST", "/api/submissions") ∧
    (∀ (env : Env) (d : Obj), env.openFails = false → env.writeFails = false →
        getField d "id" = none → (db.part .pendingSubmissions).wf = true →
        ∃ db' : OfflineDB,
          storeForOffline env db .pendingSubmissions d = .resolved db' env.syncSupported ∧
          (pendingEntries db').length = (pendingEntries db).length + 1) := by
  refine ⟨rfl, rfl, ?_⟩
  intro env d ho hw hid hwf
  obtain ⟨db', h1, p1, _, _⟩ := storeForOffline_add_step env db d ho hw hid hwf
  refine ⟨db', h1, ?_⟩
  rw [p1]
  simp

/-- Witness for C3: on a concrete network failure the database is
unchanged, while a direct storeForOffline call grows the queue by one. -/
theorem submit_never_persists_witness :
    (submitAnswerFlow FetchOutcome.netError
      ⟨{ entries := [], nextKey := 5 }, emptyPartition, emptyPartition⟩).db
      = ⟨{ entries := [], nextKey := 5 }, emptyPartition, emptyPartition⟩ ∧
    ∃ db' : OfflineDB,
      storeForOffline ⟨false, false, false, true, "T1"⟩
          ⟨{ entries := [], nextKey := 5 }, emptyPartition, emptyPartition⟩
          .pendingSubmissions [("questionPaperId", JValue.num 7)]
        = .resolved db' true ∧
      (pendingEntries db').length
        = (pendingEntries
            (⟨{ entries := [], nextKey := 5 }, emptyPartition, emptyPartition⟩ : OfflineDB)).length
          + 1 := by
  have h := submit_never_persists FetchOutcome.netError
    ⟨{ entries := [], nextKey := 5 }, emptyPartition, emptyPartition⟩
  exact ⟨h.1, h.2.2 ⟨false, false, false, true, "T1"⟩ [("questionPaperId", JValue.num 7)]
    rfl rfl (by decide) (by decide)⟩

end ExamShare
